import Mathlib

/-!
Shallow embedding of `src/exchanges.py` (Bitcoin-Trader): the BTCe and
Bitfinex exchange adapters.  Python values appearing in JSON responses are
modelled by `JVal`, Python exceptions by `PyExc`, the `decimal.Decimal`
type by exact rationals plus an explicit 28-significant-digit context
rounding (`roundSig28`) mirroring the default decimal context, and
`try/except OSError` blocks by a match on the exception class of the
attempted body.  Network interaction is modelled by passing in the
outcome of each raw transport attempt (a script of outcomes); the
unbounded `while True` retry loops become structural recursion on the
script, with a distinguished "exhausted" outcome meaning the loop was
still running when the script ran out.
-/

/-- Python exception classes relevant to `exchanges.py`.  `osError` stands
for `OSError` and all its subclasses (`URLError`, `socket.timeout`,
`ConnectionError`); `valueError` covers `ValueError` and its subclass
`json.JSONDecodeError`; `httpException` is `http.client.HTTPException`,
which is *not* an `OSError` subclass. -/
inductive PyExc where
  | osError
  | valueError
  | httpException
  | typeError
  | keyError (k : String)
  | indexError
  | attributeError
  deriving DecidableEq, Repr

/-- `isinstance(e, OSError)`: the class test performed by the
`except OSError` clauses in `exchanges.py`. -/
def PyExc.isOSError : PyExc → Bool
  | .osError => true
  | _ => false

/-- Python values produced by `json.loads`, as used by the adapters.
Numbers are carried as exact rationals (the decimal literal written in the
response body). -/
inductive JVal where
  | jnull
  | jbool (b : Bool)
  | jnum (q : ℚ)
  | jstr (s : String)
  | jarr (xs : List JVal)
  | jobj (fields : List (String × JVal))

/-- Python `dict` lookup on an association list: the last binding of a key
wins, matching the semantics of repeated assignment in a `dict`. -/
def lookupLast {α : Type} (k : String) : List (String × α) → Option α
  | [] => none
  | (k', v) :: rest =>
    match lookupLast k rest with
    | some w => some w
    | none => if k' = k then some v else none

/-- One assignment `d[k] = v` on a Python dict modelled as an association
list: overwrite in place when the key is present, append otherwise. -/
def dictSet {α : Type} (d : List (String × α)) (k : String) (v : α) : List (String × α) :=
  if d.any (fun p => p.1 = k) then
    d.map (fun p => if p.1 = k then (p.1, v) else p)
  else
    d ++ [(k, v)]

/-- Python `d.update(kvs)`. -/
def dictUpdate {α : Type} (d : List (String × α)) (kvs : List (String × α)) :
    List (String × α) :=
  kvs.foldl (fun acc kv => dictSet acc kv.1 kv.2) d

/-- Boolean contiguous-sublist test on character lists (Python substring
membership `needle in haystack`). -/
def charsInfix (needle : List Char) : List Char → Bool
  | [] => needle.isEmpty
  | c :: rest => needle.isPrefixOf (c :: rest) || charsInfix needle rest

/-- Python `key in x` for the values that occur in `exchanges.py`:
key membership for a dict, element membership for a list, substring test
for a string; on `None`, numbers and booleans it raises `TypeError`
(argument of type ... is not iterable). -/
def pyIn (k : String) : JVal → Except PyExc Bool
  | .jobj d => .ok (d.any (fun p => p.1 = k))
  | .jarr xs => .ok (xs.any (fun x => match x with | .jstr s => s = k | _ => false))
  | .jstr s => .ok (charsInfix k.data s.data)
  | .jnull => .error .typeError
  | .jbool _ => .error .typeError
  | .jnum _ => .error .typeError

/-- Python subscript `x[k]` with a string key: dict lookup raising
`KeyError` when absent; a list subscripted by a string raises `TypeError`;
other values raise `TypeError` as well. -/
def jGet (x : JVal) (k : String) : Except PyExc JVal :=
  match x with
  | .jobj d =>
    match lookupLast k d with
    | some v => .ok v
    | none => .error (.keyError k)
  | _ => .error .typeError

/-- Python `x == 1` for a JSON value (`True == 1` holds in Python). -/
def pyEqOne : JVal → Bool
  | .jnum q => q = 1
  | .jbool b => b
  | _ => false

/-- Python `x is True` (identity with the `True` singleton). -/
def pyIsTrue : JVal → Bool
  | .jbool b => b
  | _ => false

/-- The embedding of a `try: body except OSError: log; return None` block,
as written in all four raw-call methods of `exchanges.py`: the body either
produces a JSON value or raises; only `OSError` (and subclasses) is caught
and converted to the `None` FAILURE sentinel. -/
def tryExceptOSError (attempt : Except PyExc JVal) : Except PyExc (Option JVal) :=
  match attempt with
  | .ok j => .ok (some j)
  | .error e => if e.isOSError then .ok none else .error e

/-! ### Python string helpers

Kernel-evaluable models of the Python `str` operations used by
`exchanges.py` (`split` with a one-character separator, `strip`,
`int(...)`), defined structurally on the character list. -/

/-- Python `s.split(sep)` for a one-character separator (the source only
splits on `";"`, `","`, `":"` and `"."`). -/
def splitOnChar (sep : Char) : List Char → List (List Char)
  | [] => [[]]
  | c :: rest =>
    match splitOnChar sep rest with
    | [] => [[c]]
    | h :: t => if c = sep then [] :: h :: t else (c :: h) :: t

/-- Python `s.split(sep)` on strings. -/
def pySplit (s : String) (sep : Char) : List String :=
  (splitOnChar sep s.data).map (fun cs => String.mk cs)

/-- Whitespace as stripped by Python `str.strip()`. -/
def isPySpace (c : Char) : Bool :=
  c = ' ' || c = '\t' || c = '\n' || c = '\r'

/-- Python `s.strip()`. -/
def pyStrip (s : String) : String :=
  String.mk (((s.data.dropWhile isPySpace).reverse.dropWhile isPySpace).reverse)

/-- Fold a non-empty all-digit character list to its value. -/
def parseDecDigits : List Char → Option ℕ
  | [] => none
  | cs =>
    cs.foldl (fun acc c =>
      match acc with
      | none => none
      | some n => if c.isDigit then some (n * 10 + (c.toNat - 48)) else none)
      (some 0)

/-- Python `int(s)`: optional surrounding whitespace, optional sign,
digits; anything else raises `ValueError` (modelled as `none`). -/
def pyInt? (s : String) : Option ℤ :=
  match (pyStrip s).data with
  | '-' :: rest => (parseDecDigits rest).map (fun n => -(n : ℤ))
  | '+' :: rest => (parseDecDigits rest).map (fun n => (n : ℤ))
  | rest => (parseDecDigits rest).map (fun n => (n : ℤ))

/-! ### Decimal arithmetic and formatting

Python `decimal.Decimal` with the default context: 28 significant digits,
`ROUND_HALF_EVEN`.  Exact values are carried as integer fractions with a
positive denominator (`Frac`), and each context arithmetic operation
rounds its exact result back to 28 significant digits; the fixed-point
format specifications round half-even to the requested number of
places.  Everything is defined by integer arithmetic so that concrete
instances evaluate inside the kernel. -/

/-- An exact rational carried as an un-normalized integer fraction with
positive denominator: the value of a `Decimal` or of an intermediate
exact result. -/
structure Frac where
  num : ℤ
  den : ℤ
  deriving DecidableEq, Repr

/-- The rational value of a fraction. -/
def Frac.toRat (a : Frac) : ℚ := (a.num : ℚ) / (a.den : ℚ)

/-- A `Decimal` written as an integer. -/
def Frac.ofInt (n : ℤ) : Frac := ⟨n, 1⟩

/-- Exact product (`Decimal` multiplication before context rounding). -/
def Frac.mul (a b : Frac) : Frac := ⟨a.num * b.num, a.den * b.den⟩

/-- Exact difference (`Decimal` subtraction before context rounding). -/
def Frac.sub (a b : Frac) : Frac := ⟨a.num * b.den - b.num * a.den, a.den * b.den⟩

/-- Exact quotient (`Decimal` division before context rounding), keeping
the denominator positive. -/
def Frac.div (a b : Frac) : Frac :=
  if b.num < 0 then ⟨-(a.num * b.den), a.den * (-b.num)⟩ else ⟨a.num * b.den, a.den * b.num⟩

/-- Strict order on fractions (positive denominators). -/
def Frac.ltB (a b : Frac) : Bool := a.num * b.den < b.num * a.den

/-- Round a fraction to the nearest integer, ties to even
(`ROUND_HALF_EVEN`): with `f = ⌊a⌋`, compare the remainder against one
half by cross-multiplication. -/
def roundHalfEvenF (a : Frac) : ℤ :=
  let f := a.num.fdiv a.den
  let twice := 2 * (a.num - f * a.den)
  if twice < a.den then f
  else if a.den < twice then f + 1
  else if f % 2 = 0 then f else f + 1

/-- Number of decimal digits of a natural number (1 for 0). -/
def natDigits (n : ℕ) : ℕ := (toString n).length

/-- Whether `10 ^ e ≤ a` for a positive fraction `a` and an integer
exponent `e`. -/
def Frac.tenPowLe (e : ℤ) (a : Frac) : Bool :=
  if 0 ≤ e then ((10 ^ e.toNat : ℕ) : ℤ) * a.den ≤ a.num
  else a.den ≤ a.num * ((10 ^ (-e).toNat : ℕ) : ℤ)

/-- For a positive fraction, the exponent `e` with
`10 ^ e ≤ a < 10 ^ (e + 1)`. -/
def floorLog10F (a : Frac) : ℤ :=
  let e0 : ℤ := (natDigits a.num.natAbs : ℤ) - (natDigits a.den.natAbs : ℤ) - 1
  if Frac.tenPowLe (e0 + 1) a then e0 + 1 else e0

/-- Round a positive fraction to `prec` significant digits, half-even. -/
def roundSigPosF (prec : ℕ) (a : Frac) : Frac :=
  let shift : ℤ := (prec : ℤ) - 1 - floorLog10F a
  if 0 ≤ shift then
    ⟨roundHalfEvenF ⟨a.num * ((10 ^ shift.toNat : ℕ) : ℤ), a.den⟩, ((10 ^ shift.toNat : ℕ) : ℤ)⟩
  else
    ⟨roundHalfEvenF ⟨a.num, a.den * ((10 ^ (-shift).toNat : ℕ) : ℤ)⟩
        * ((10 ^ (-shift).toNat : ℕ) : ℤ), 1⟩

/-- Round a fraction to `prec` significant digits (the decimal context
applies this after every arithmetic operation). -/
def roundSigF (prec : ℕ) (a : Frac) : Frac :=
  if a.num = 0 then ⟨0, 1⟩
  else if 0 < a.num then roundSigPosF prec a
  else
    let r := roundSigPosF prec ⟨-a.num, a.den⟩
    ⟨-r.num, r.den⟩

/-- Rounding of the default Python decimal context (28 significant
digits). -/
def roundSig28 (a : Frac) : Frac := roundSigF 28 a

/-- `Decimal * Decimal` under the default context. -/
def mulCtx (a b : Frac) : Frac := roundSig28 (a.mul b)

/-- `Decimal - Decimal` under the default context. -/
def subCtx (a b : Frac) : Frac := roundSig28 (a.sub b)

/-- `Decimal / Decimal` under the default context. -/
def divCtx (a b : Frac) : Frac := roundSig28 (a.div b)

/-- Left-pad a string with zeros to the given length. -/
def padZeros (len : ℕ) (s : String) : String :=
  String.mk (List.replicate (len - s.length) '0') ++ s

/-- Python `"{:0.Nf}".format(d)` for a `Decimal` value `d`: fixed-point
with exactly `places` fractional digits, rounding half-even. -/
def fmtFixed (places : ℕ) (a : Frac) : String :=
  let n : ℤ := roundHalfEvenF ⟨a.num * ((10 ^ places : ℕ) : ℤ), a.den⟩
  let m : ℕ := n.natAbs
  let sign := if n < 0 then "-" else ""
  if places = 0 then sign ++ toString m
  else sign ++ toString (m / 10 ^ places) ++ "." ++ padZeros places (toString (m % 10 ^ places))

/-- A `decimal.Decimal` as stored: coefficient and (non-negative) scale,
value `num / 10 ^ scale`.  Needed where the Python code formats a caller
supplied `Decimal` with `"{:f}"`, which prints the stored digits. -/
structure Dec where
  num : ℤ
  scale : ℕ
  deriving DecidableEq, Repr

/-- The rational value of a stored decimal. -/
def Dec.toRat (d : Dec) : ℚ := (d.num : ℚ) / (10 : ℚ) ^ d.scale

/-- Python `"{:f}".format(d)`: print the stored coefficient with the
decimal point inserted `scale` digits from the right (no point when the
scale is zero). -/
def Dec.fmtF (d : Dec) : String :=
  let m := d.num.natAbs
  let sign := if d.num < 0 then "-" else ""
  if d.scale = 0 then sign ++ toString m
  else sign ++ toString (m / 10 ^ d.scale) ++ "." ++ padZeros d.scale (toString (m % 10 ^ d.scale))

/-- Parse `intpart.fracpart` (either side may be empty but not both) to
its exact value. -/
def parseDecBody (s : String) : Option Frac :=
  match pySplit s '.' with
  | [ip] => (parseDecDigits ip.data).map (fun n => Frac.ofInt (n : ℤ))
  | [ip, fp] =>
    if ip.isEmpty ∧ fp.isEmpty then none
    else
      let ipv : Option ℕ := if ip.isEmpty then some 0 else parseDecDigits ip.data
      let fpv : Option ℕ := if fp.isEmpty then some 0 else parseDecDigits fp.data
      match ipv, fpv with
      | some i, some f =>
        some ⟨((i * 10 ^ fp.length + f : ℕ) : ℤ), ((10 ^ fp.length : ℕ) : ℤ)⟩
      | _, _ => none
  | _ => none

/-- `Decimal(s)` for a string `s` (plain fixed-point syntax; `none`
models `InvalidOperation` on malformed input). -/
def parseDecF (s : String) : Option Frac :=
  match s.data with
  | '-' :: rest => (parseDecBody (String.mk rest)).map (fun f => ⟨-f.num, f.den⟩)
  | '+' :: rest => parseDecBody (String.mk rest)
  | _ => parseDecBody s

/-- `Decimal(str(v))` for a JSON value `v`, as applied to the numeric
fields of responses: a JSON number keeps its value, a numeric string is
parsed, anything else fails (`InvalidOperation`, modelled as
`valueError`). -/
def decOfPy (v : JVal) : Except PyExc ℚ :=
  match v with
  | .jnum q => .ok q
  | .jstr s =>
    match parseDecF s with
    | some f => .ok f.toRat
    | none => .error .valueError
  | _ => .error .valueError

/-! ### The Quote value

`exchanges.py` imports `Quote` from `util`, which is not part of the
sources here. -/

/-- Modelled from the spec: the `Quote` class of `util.py` (absent from
the sources).  Per the spec it is an immutable snapshot
`(bid, ask, timestamp, exchange, symbol)` with a distinguished "empty"
value meaning "no data available", distinguishable from a real
zero-priced quote; both adapters construct it positionally as
`Quote(bid, ask, timestamp, name, symbol)` and `Quote()` builds the empty
value. -/
inductive QuoteV where
  | empty
  | mk (bid ask ts : ℚ) (exchange symbol : String)
  deriving DecidableEq, Repr

/-! ### BTCe raw calls, nonce and bootstrap -/

/-- `BTCe.get_unauthenticated_data` (lines 186-204): one GET plus JSON
decode, with only `OSError` downgraded to the `None` FAILURE sentinel.
The argument is the outcome of the `try` body (a decoded JSON value, or
the exception it raised). -/
def BTCe.get_unauthenticated_data (attempt : Except PyExc JVal) : Except PyExc (Option JVal) :=
  tryExceptOSError attempt

/-- The nonce representation `None` / integer as injected into the
request parameters. -/
def jOfNonce : Option ℤ → JVal
  | none => .jnull
  | some n => .jnum (n : ℚ)

/-- The nonce update of `BTCe.get_authenticated_data` (lines 156-159):
`if self.__nonce is not None: self.__nonce += 1; nonce = self.__nonce`.
Returns the new stored nonce and the nonce value sent with the call
(equal to the new stored nonce). -/
def BTCe.nonce_step (st : Option ℤ) : Option ℤ × Option ℤ :=
  match st with
  | none => (none, none)
  | some n => (some (n + 1), some (n + 1))

/-- The stored nonce after `k` further authenticated calls. -/
def BTCe.nonce_iter (st : Option ℤ) : ℕ → Option ℤ
  | 0 => st
  | k + 1 => (BTCe.nonce_step (BTCe.nonce_iter st k)).1

/-- The nonce sent by authenticated call number `k + 1` (zero-indexed
`k`) issued from stored nonce `st`. -/
def BTCe.sent_nonce (st : Option ℤ) (k : ℕ) : Option ℤ :=
  (BTCe.nonce_step (BTCe.nonce_iter st k)).2

/-- Result of one `BTCe.get_authenticated_data` call: the new stored
nonce, the nonce sent, the caller's parameter dict after the in-place
`params.update({"method": method, "nonce": nonce})`, and the call's
result. -/
structure BTCeAuthOut where
  nonceAfter : Option ℤ
  sentNonce : Option ℤ
  paramsAfter : List (String × JVal)
  result : Except PyExc (Option JVal)

/-- `BTCe.get_authenticated_data` (lines 145-184): bump the nonce, mutate
`params` in place with the `method` and `nonce` keys, sign and POST; only
`OSError` is downgraded to `None`.  The HMAC-SHA512 signature itself does
not influence any observable modelled here. -/
def BTCe.get_authenticated_data (nonce : Option ℤ) (method : JVal)
    (params : List (String × JVal)) (attempt : Except PyExc JVal) : BTCeAuthOut :=
  let nonce' := (BTCe.nonce_step nonce).1
  let params' := dictUpdate params [("method", method), ("nonce", jOfNonce (BTCe.nonce_step nonce).2)]
  { nonceAfter := nonce'
    sentNonce := (BTCe.nonce_step nonce).2
    paramsAfter := params'
    result := tryExceptOSError attempt }

/-- The nonce-recovery parse of `BTCe.__init__` (lines 131-133):
`error_info = answer["error"].split(";")[1].strip()` followed by
`dict((k.strip(), v.strip()) for k, v in (p.split(":") for p in
error_info.split(",")))` and `int(error_dict["on key"])`, with the
exceptions each step can raise. -/
def parseNonceError (err : String) : Except PyExc ℤ :=
  match (pySplit err ';').get? 1 with
  | none => .error .indexError
  | some info0 =>
    let pieces := (pySplit (pyStrip info0) ',').map (fun p => pySplit p ':')
    if pieces.all (fun xs => xs.length = 2) then
      let entries := pieces.filterMap (fun xs =>
        match xs with
        | [k, v] => some (pyStrip k, pyStrip v)
        | _ => none)
      match lookupLast "on key" entries with
      | none => .error (.keyError "on key")
      | some v =>
        match pyInt? v with
        | some n => .ok n
        | none => .error .valueError
    else .error .valueError

/-- Outcome of the nonce-bootstrap loop of `BTCe.__init__`. -/
inductive BootOutcome where
  | initialized (nonce : ℤ)
  | raised (e : PyExc)
  | exhausted
  deriving DecidableEq, Repr

/-- The bootstrap loop of `BTCe.__init__` (lines 125-136): call the
authenticated endpoint (here: with the scripted results), retry until the
answer is not `None` and carries an `"error"` key, then recover the nonce
from the error message.  `.exhausted` means the loop was still retrying
when the script ran out. -/
def BTCe.bootstrap_nonce : List (Option JVal) → BootOutcome
  | [] => .exhausted
  | a :: rest =>
    match a with
    | none => BTCe.bootstrap_nonce rest
    | some v =>
      match pyIn "error" v with
      | .error e => .raised e
      | .ok false => BTCe.bootstrap_nonce rest
      | .ok true =>
        match jGet v "error" with
        | .error e => .raised e
        | .ok (.jstr err) =>
          match parseNonceError err with
          | .ok n => .initialized n
          | .error e => .raised e
        | .ok _ => .raised .attributeError

/-! ### get_quote (both variants) -/

/-- Outcome of a `get_quote` call driven by a finite script of raw-call
results: a returned `Quote` (with the number of sleeps performed and
transport attempts made), a raised exception, or the loop still running
when the script ran out. -/
inductive QuoteOutcome where
  | returned (q : QuoteV) (sleeps : ℕ) (attempts : ℕ)
  | raised (e : PyExc) (sleeps : ℕ) (attempts : ℕ)
  | exhausted (sleeps : ℕ) (attempts : ℕ)
  deriving DecidableEq, Repr

/-- One iteration body of `BTCe.get_quote` (lines 222-233): validate
`(answer is not None) and (self.symbol in answer)` and on success build
`Quote(Decimal(str(info["sell"])), Decimal(str(info["buy"])),
Decimal(str(time.time())), self.name, self.symbol)`; `.ok none` means the
validation rejected the answer. -/
def BTCe.quote_attempt (symbol : String) (now : ℚ) (answer : Option JVal) :
    Except PyExc (Option QuoteV) :=
  match answer with
  | none => .ok none
  | some v =>
    match pyIn symbol v with
    | .error e => .error e
    | .ok false => .ok none
    | .ok true =>
      match jGet v symbol with
      | .error e => .error e
      | .ok info =>
        match jGet info "sell" with
        | .error e => .error e
        | .ok sv =>
          match decOfPy sv with
          | .error e => .error e
          | .ok bidv =>
            match jGet info "buy" with
            | .error e => .error e
            | .ok bv =>
              match decOfPy bv with
              | .error e => .error e
              | .ok askv => .ok (some (.mk bidv askv now "BTCe" symbol))

/-- The `while True` loop of `BTCe.get_quote` (lines 218-241): on an
invalid answer either sleep and retry (`retry = true`) or return the
empty `Quote` at once. -/
def BTCe.get_quote_loop (symbol : String) (now : ℚ) (retry : Bool) :
    List (Option JVal) → ℕ → ℕ → QuoteOutcome
  | [], sleeps, attempts => .exhausted sleeps attempts
  | a :: rest, sleeps, attempts =>
    match BTCe.quote_attempt symbol now a with
    | .error e => .raised e sleeps (attempts + 1)
    | .ok (some q) => .returned q sleeps (attempts + 1)
    | .ok none =>
      if retry then BTCe.get_quote_loop symbol now retry rest (sleeps + 1) (attempts + 1)
      else .returned .empty sleeps (attempts + 1)

/-- `BTCe.get_quote` driven by a script of raw-call results. -/
def BTCe.get_quote (symbol : String) (now : ℚ) (retry : Bool)
    (script : List (Option JVal)) : QuoteOutcome :=
  BTCe.get_quote_loop symbol now retry script 0 0

/-- One iteration body of `Bitfinex.get_quote` (lines 467-477): validate
`(answer is not None) and ("bid" in answer) and ("ask" in answer) and
("timestamp" in answer)` (short-circuit, left to right) and on success
build `Quote(Decimal(answer["bid"]), Decimal(answer["ask"]),
Decimal(str(time.time())), self.name, self.symbol)`. -/
def Bitfinex.quote_attempt (symbol : String) (now : ℚ) (answer : Option JVal) :
    Except PyExc (Option QuoteV) :=
  match answer with
  | none => .ok none
  | some v =>
    match pyIn "bid" v with
    | .error e => .error e
    | .ok false => .ok none
    | .ok true =>
      match pyIn "ask" v with
      | .error e => .error e
      | .ok false => .ok none
      | .ok true =>
        match pyIn "timestamp" v with
        | .error e => .error e
        | .ok false => .ok none
        | .ok true =>
          match jGet v "bid" with
          | .error e => .error e
          | .ok bv =>
            match decOfPy bv with
            | .error e => .error e
            | .ok bidv =>
              match jGet v "ask" with
              | .error e => .error e
              | .ok av =>
                match decOfPy av with
                | .error e => .error e
                | .ok askv => .ok (some (.mk bidv askv now "Bitfinex" symbol))

/-- The `while True` loop of `Bitfinex.get_quote` (lines 463-485). -/
def Bitfinex.get_quote_loop (symbol : String) (now : ℚ) (retry : Bool) :
    List (Option JVal) → ℕ → ℕ → QuoteOutcome
  | [], sleeps, attempts => .exhausted sleeps attempts
  | a :: rest, sleeps, attempts =>
    match Bitfinex.quote_attempt symbol now a with
    | .error e => .raised e sleeps (attempts + 1)
    | .ok (some q) => .returned q sleeps (attempts + 1)
    | .ok none =>
      if retry then Bitfinex.get_quote_loop symbol now retry rest (sleeps + 1) (attempts + 1)
      else .returned .empty sleeps (attempts + 1)

/-- `Bitfinex.get_quote` driven by a script of raw-call results. -/
def Bitfinex.get_quote (symbol : String) (now : ℚ) (retry : Bool)
    (script : List (Option JVal)) : QuoteOutcome :=
  Bitfinex.get_quote_loop symbol now retry script 0 0

/-! ### get_balance -/

/-- Outcome of a balance retry loop driven by a finite script of
authenticated-call results. -/
inductive BalanceOutcome where
  | returned (funds : List (String × ℚ)) (calls : ℕ)
  | raised (e : PyExc) (calls : ℕ)
  | exhausted (calls : ℕ)
  deriving DecidableEq, Repr

/-- The per-entry `Decimal(str(value))` conversion applied by
`BTCe.get_balance` to `answer["return"]["funds"]` (lines 266-267). -/
def convertFunds : List (String × JVal) → Except PyExc (List (String × ℚ))
  | [] => .ok []
  | (k, v) :: rest =>
    match decOfPy v with
    | .error e => .error e
    | .ok q =>
      match convertFunds rest with
      | .error e => .error e
      | .ok tail => .ok ((k, q) :: tail)

/-- The normalization step after the loop of `BTCe.get_balance`
(lines 265-271): read `answer["return"]["funds"]`, convert every value to
`Decimal`, then add `funds["time_stamp"] =
Decimal(str(answer["return"]["server_time"]))`. -/
def BTCe.balance_finalize (answer : JVal) : Except PyExc (List (String × ℚ)) :=
  match jGet answer "return" with
  | .error e => .error e
  | .ok r =>
    match jGet r "funds" with
    | .error e => .error e
    | .ok (.jobj d) =>
      match convertFunds d with
      | .error e => .error e
      | .ok funds =>
        match jGet r "server_time" with
        | .error e => .error e
        | .ok st =>
          match decOfPy st with
          | .error e => .error e
          | .ok t => .ok (dictSet funds "time_stamp" t)
    | .ok _ => .error .attributeError

/-- The `while True` loop of `BTCe.get_balance` (lines 251-262) plus the
final normalization, driven by a script of `get_authenticated_data`
results.  The validation is
`("success" in answer) and (answer["success"] == 1)`; on the `None`
FAILURE sentinel the membership test itself raises `TypeError`. -/
def BTCe.get_balance_loop : List (Option JVal) → ℕ → BalanceOutcome
  | [], calls => .exhausted calls
  | a :: rest, calls =>
    match a with
    | none => .raised .typeError (calls + 1)
    | some v =>
      match pyIn "success" v with
      | .error e => .raised e (calls + 1)
      | .ok false => BTCe.get_balance_loop rest (calls + 1)
      | .ok true =>
        match jGet v "success" with
        | .error e => .raised e (calls + 1)
        | .ok s =>
          if pyEqOne s then
            match BTCe.balance_finalize v with
            | .error e => .raised e (calls + 1)
            | .ok funds => .returned funds (calls + 1)
          else BTCe.get_balance_loop rest (calls + 1)

/-- `BTCe.get_balance` driven by a script of raw-call results. -/
def BTCe.get_balance (script : List (Option JVal)) : BalanceOutcome :=
  BTCe.get_balance_loop script 0

/-- Outcome of the `Bitfinex.get_balance` retry loop: the accepted raw
answer (before normalization), a raised exception, or still retrying. -/
inductive BfxBalanceOutcome where
  | accepted (answer : JVal) (calls : ℕ)
  | raised (e : PyExc) (calls : ℕ)
  | exhausted (calls : ℕ)

/-- The validation of `Bitfinex.get_balance` (line 505):
`isinstance(answer, list) and ("available" in answer[0])`.  A non-list
(including `None`) fails the `isinstance` test and the loop retries; an
empty list raises `IndexError` at `answer[0]`. -/
def Bitfinex.balance_check (answer : Option JVal) : Except PyExc Bool :=
  match answer with
  | some (.jarr []) => .error .indexError
  | some (.jarr (x :: _)) => pyIn "available" x
  | _ => .ok false

/-- The `while True` loop of `Bitfinex.get_balance` (lines 498-509). -/
def Bitfinex.get_balance_loop : List (Option JVal) → ℕ → BfxBalanceOutcome
  | [], calls => .exhausted calls
  | a :: rest, calls =>
    match Bitfinex.balance_check a with
    | .error e => .raised e (calls + 1)
    | .ok true =>
      match a with
      | some v => .accepted v (calls + 1)
      | none => .raised .typeError (calls + 1)
    | .ok false => Bitfinex.get_balance_loop rest (calls + 1)

/-! ### Bitfinex authenticated call and order placement -/

/-- `Bitfinex.get_authenticated_data` (lines 398-432): mutate the caller's
`request` dict in place with the `request` (endpoint path, prefixed by
`"/v1"`) and `nonce` (`str(time.time())`) keys, sign, POST; only
`OSError` is downgraded to the `None` FAILURE sentinel.  Returns the
mutated dict alongside the call's result. -/
def Bitfinex.get_authenticated_data (url : String) (request : List (String × JVal))
    (nonceStr : String) (attempt : Except PyExc JVal) :
    List (String × JVal) × Except PyExc (Option JVal) :=
  (dictUpdate request [("request", .jstr ("/v1" ++ url)), ("nonce", .jstr nonceStr)],
   tryExceptOSError attempt)

/-- Outcome of the submission loop of `Bitfinex.place_market_order`. -/
inductive SubmitOutcome where
  | acked (ack : JVal) (rest : List (Option JVal)) (tries : ℕ)
  | raised (e : PyExc) (tries : ℕ)
  | exhausted (tries : ℕ)

/-- The submission loop of `Bitfinex.place_market_order` (lines 534-544):
resubmit until `"order_id" in answer`; on the `None` FAILURE sentinel the
membership test raises `TypeError`. -/
def Bitfinex.submit_loop : List (Option JVal) → ℕ → SubmitOutcome
  | [], tries => .exhausted tries
  | a :: rest, tries =>
    match a with
    | none => .raised .typeError (tries + 1)
    | some v =>
      match pyIn "order_id" v with
      | .error e => .raised e (tries + 1)
      | .ok true => .acked v rest (tries + 1)
      | .ok false => Bitfinex.submit_loop rest (tries + 1)

/-- Outcome of the fill-polling loop of `Bitfinex.place_market_order`. -/
inductive PollOutcome where
  | fetchBalance (polls : ℕ)
  | raised (e : PyExc) (polls : ℕ)
  | exhausted (polls : ℕ)
  deriving DecidableEq, Repr

/-- The loop condition of lines 549-551:
`("is_live" not in answer) or (order_status["is_live"] is True)`, where
`answer` is the original acknowledgment (never reassigned inside the
loop) and `order_status` is the latest status response.  `.ok true` means
the loop keeps polling. -/
def Bitfinex.order_poll_cond (ack : JVal) (status : Option JVal) : Except PyExc Bool :=
  match pyIn "is_live" ack with
  | .error e => .error e
  | .ok false => .ok true
  | .ok true =>
    match status with
    | none => .error .typeError
    | some sv =>
      match jGet sv "is_live" with
      | .error e => .error e
      | .ok v => .ok (pyIsTrue v)

/-- The busy-poll loop of lines 549-551, driven by a script of
`/order/status` results.  No sleep occurs between polls. -/
def Bitfinex.order_poll_loop (ack : JVal) : Option JVal → List (Option JVal) → ℕ → PollOutcome
  | status, script, polls =>
    match Bitfinex.order_poll_cond ack status with
    | .error e => .raised e polls
    | .ok false => .fetchBalance polls
    | .ok true =>
      match script with
      | [] => .exhausted polls
      | s :: rest => Bitfinex.order_poll_loop ack s rest (polls + 1)

/-- Outcome of `Bitfinex.place_market_order` up to (and including) the
decision to fetch a fresh balance. -/
inductive OrderOutcome where
  | balanceFetched (polls : ℕ)
  | raised (e : PyExc)
  | exhausted
  deriving DecidableEq, Repr

/-- `Bitfinex.place_market_order` (lines 521-557): resubmit until an
acknowledgment contains `order_id`, then poll `/order/status` (with the
remainder of the script) until the loop condition releases, then fetch a
fresh balance (represented by `.balanceFetched`, with the number of
status polls made).  `order_status` starts as the acknowledgment
itself. -/
def Bitfinex.place_market_order (script : List (Option JVal)) : OrderOutcome :=
  match Bitfinex.submit_loop script 0 with
  | .raised e _ => .raised e
  | .exhausted _ => .exhausted
  | .acked ack rest _ =>
    match jGet ack "order_id" with
    | .error e => .raised e
    | .ok _ =>
      match Bitfinex.order_poll_loop ack (some ack) rest 0 with
      | .raised e _ => .raised e
      | .exhausted _ => .exhausted
      | .fetchBalance polls => .balanceFetched polls

/-! ### Market order parameter construction -/

/-- The order parameters built by `BTCe.market_buy` (lines 324-327):
`rate` is the cached ask times `Decimal("1.5")` formatted to 3 places,
`amount` is `amount / (1 - fee_rate)` formatted to 8 places (fee
inflation), all under the default decimal context. -/
def BTCe.market_buy_params (symbol : String) (fee_rate ask amount : Frac) :
    List (String × String) :=
  [("pair", symbol),
   ("type", "buy"),
   ("rate", fmtFixed 3 (mulCtx ask ⟨15, 10⟩)),
   ("amount", fmtFixed 8 (divCtx amount (subCtx (Frac.ofInt 1) fee_rate)))]

/-- The order parameters built by `BTCe.market_sell` (lines 346-349):
`rate` is the cached bid times `Decimal("0.6")` formatted to 3 places,
`amount` is the input amount formatted to 8 places (no fee
adjustment). -/
def BTCe.market_sell_params (symbol : String) (bid amount : Frac) :
    List (String × String) :=
  [("pair", symbol),
   ("type", "sell"),
   ("rate", fmtFixed 3 (mulCtx bid ⟨6, 10⟩)),
   ("amount", fmtFixed 8 amount)]

/-- The order parameters built by `Bitfinex.market_buy` (lines 567-572):
the `price` field is the literal `"0.01"` and the `amount` field is
`"{:f}".format(amount)`. -/
def Bitfinex.market_buy_params (symbol : String) (amount : Dec) :
    List (String × String) :=
  [("symbol", symbol),
   ("amount", amount.fmtF),
   ("price", "0.01"),
   ("exchange", "bitfinex"),
   ("side", "buy"),
   ("type", "exchange market")]

/-- The order parameters built by `Bitfinex.market_sell` (lines 584-589):
the `price` field is the literal `"100000.00"` and the `amount` field is
`"{:f}".format(amount)`. -/
def Bitfinex.market_sell_params (symbol : String) (amount : Dec) :
    List (String × String) :=
  [("symbol", symbol),
   ("amount", amount.fmtF),
   ("price", "100000.00"),
   ("exchange", "bitfinex"),
   ("side", "sell"),
   ("type", "exchange market")]

theorem lookupLast_append {α : Type} (k : String) (d e : List (String × α)) :
    lookupLast k (d ++ e) =
      match lookupLast k e with
      | some w => some w
      | none => lookupLast k d := by
  induction d with
  | nil =>
    cases he : lookupLast k e <;> simp [lookupLast, he]
  | cons p tl ih =>
    obtain ⟨k', v⟩ := p
    show (match lookupLast k (tl ++ e) with
          | some w => some w
          | none => if k' = k then some v else none) = _
    rw [ih]
    cases he : lookupLast k e <;> cases ht : lookupLast k tl <;> simp [lookupLast, ht]

theorem lookupLast_none_iff {α : Type} (k : String) (d : List (String × α)) :
    lookupLast k d = none ↔ d.any (fun p => p.1 = k) = false := by
  induction d with
  | nil => simp [lookupLast]
  | cons p tl ih =>
    obtain ⟨k', v⟩ := p
    show (match lookupLast k tl with
          | some w => some w
          | none => if k' = k then some v else none) = none ↔ _
    cases ht : lookupLast k tl with
    | some w =>
      rw [ht] at ih
      simp only [List.any_cons]
      constructor
      · intro h; exact absurd h (by simp)
      · intro h
        simp only [Bool.or_eq_false_iff] at h
        exact absurd (ih.mpr h.2) (by simp)
    | none =>
      rw [ht] at ih
      by_cases hk : k' = k <;> simp [hk, ih.mp rfl]

theorem lookupLast_map_set_keys {α : Type} (k k' : String) (v : α) (d : List (String × α)) :
    ((d.map (fun p => if p.1 = k then (p.1, v) else p)).any (fun p => p.1 = k'))
      = d.any (fun p => p.1 = k') := by
  induction d with
  | nil => simp
  | cons p tl ih =>
    obtain ⟨pk, pv⟩ := p
    by_cases hk : pk = k <;> simp [hk, ih]

theorem lookupLast_replace {α : Type} (k : String) (v : α) (d : List (String × α))
    (h : d.any (fun p => p.1 = k) = true) :
    lookupLast k (d.map (fun p => if p.1 = k then (p.1, v) else p)) = some v := by
  induction d with
  | nil => simp at h
  | cons p tl ih =>
    obtain ⟨pk, pv⟩ := p
    by_cases htl : tl.any (fun p => p.1 = k) = true
    · have := ih htl
      by_cases hk : pk = k <;>
        simp only [List.map_cons, hk, if_pos, if_neg, lookupLast, this]
    · have hpk : pk = k := by
        simp only [List.any_cons, Bool.or_eq_true, decide_eq_true_eq] at h
        exact h.resolve_right htl
      have hnone : lookupLast k (tl.map (fun p => if p.1 = k then (p.1, v) else p)) = none := by
        rw [lookupLast_none_iff, lookupLast_map_set_keys]
        exact Bool.eq_false_iff.mpr htl
      subst hpk
      simp only [List.map_cons, if_true, eq_self_iff_true]
      simp [lookupLast, hnone]

theorem lookupLast_map_set_other {α : Type} (k k' : String) (v : α) (d : List (String × α))
    (hne : k' ≠ k) :
    lookupLast k' (d.map (fun p => if p.1 = k then (p.1, v) else p)) = lookupLast k' d := by
  induction d with
  | nil => simp
  | cons p tl ih =>
    obtain ⟨pk, pv⟩ := p
    by_cases hpk : pk = k
    · have hpk' : pk ≠ k' := by rw [hpk]; exact fun hh => hne hh.symm
      show (match lookupLast k' (tl.map (fun p => if p.1 = k then (p.1, v) else p)) with
            | some w => some w
            | none => if (if pk = k then (pk, v) else (pk, pv)).1 = k' then
                some (if pk = k then (pk, v) else (pk, pv)).2 else none) = _
      rw [ih]
      cases ht : lookupLast k' tl <;> simp [lookupLast, ht, hpk, hpk', Ne.symm hne]
    · show (match lookupLast k' (tl.map (fun p => if p.1 = k then (p.1, v) else p)) with
            | some w => some w
            | none => if (if pk = k then (pk, v) else (pk, pv)).1 = k' then
                some (if pk = k then (pk, v) else (pk, pv)).2 else none) = _
      rw [ih]
      cases ht : lookupLast k' tl <;> simp [lookupLast, ht, hpk]

theorem lookupLast_dictSet_same {α : Type} (k : String) (v : α) (d : List (String × α)) :
    lookupLast k (dictSet d k v) = some v := by
  unfold dictSet
  by_cases h : d.any (fun p => p.1 = k) = true
  · rw [if_pos h]
    exact lookupLast_replace k v d h
  · rw [if_neg h, lookupLast_append]
    simp [lookupLast]

theorem lookupLast_dictSet_other {α : Type} (k k' : String) (v : α) (d : List (String × α))
    (hne : k' ≠ k) :
    lookupLast k' (dictSet d k v) = lookupLast k' d := by
  unfold dictSet
  by_cases h : d.any (fun p => p.1 = k) = true
  · rw [if_pos h]
    exact lookupLast_map_set_other k k' v d hne
  · rw [if_neg h, lookupLast_append]
    simp only [lookupLast]
    rw [if_neg (show ¬k = k' from fun hh => hne hh.symm)]

theorem BTCe.nonce_iter_some (n : ℤ) (k : ℕ) :
    BTCe.nonce_iter (some n) k = some (n + k) := by
  induction k with
  | zero => simp [BTCe.nonce_iter]
  | succ m ih =>
    simp only [BTCe.nonce_iter, ih, BTCe.nonce_step]
    congr 1
    push_cast
    ring

theorem BTCe.sent_nonce_formula (n : ℤ) (k : ℕ) :
    BTCe.sent_nonce (some n) k = some (n + k + 1) := by
  simp [BTCe.sent_nonce, BTCe.nonce_iter_some, BTCe.nonce_step]

/-! ### Invalid-response predicates for get_quote -/

/-- A raw ticker result that fails the validation of `BTCe.get_quote`
without raising: the FAILURE sentinel, or a JSON object lacking the
symbol key. -/
def BTCe.quote_invalid (symbol : String) : Option JVal → Bool
  | none => true
  | some (.jobj d) => !(d.any (fun p => p.1 = symbol))
  | some _ => false

/-- A raw ticker result that fails the validation of `Bitfinex.get_quote`
without raising: the FAILURE sentinel, or a JSON object lacking one of
the `bid` / `ask` / `timestamp` keys. -/
def Bitfinex.quote_invalid : Option JVal → Bool
  | none => true
  | some (.jobj d) =>
    !(d.any (fun p => p.1 = "bid")) || !(d.any (fun p => p.1 = "ask"))
      || !(d.any (fun p => p.1 = "timestamp"))
  | some _ => false

theorem btce_quote_attempt_of_invalid (symbol : String) (now : ℚ) (a : Option JVal)
    (h : BTCe.quote_invalid symbol a = true) :
    BTCe.quote_attempt symbol now a = .ok none := by
  cases a with
  | none => rfl
  | some v =>
    cases v with
    | jobj d =>
      simp only [BTCe.quote_invalid, Bool.not_eq_true'] at h
      simp [BTCe.quote_attempt, pyIn, h]
    | jnull => simp [BTCe.quote_invalid] at h
    | jbool b => simp [BTCe.quote_invalid] at h
    | jnum q => simp [BTCe.quote_invalid] at h
    | jstr s => simp [BTCe.quote_invalid] at h
    | jarr xs => simp [BTCe.quote_invalid] at h

theorem bfx_quote_attempt_of_invalid (symbol : String) (now : ℚ) (a : Option JVal)
    (h : Bitfinex.quote_invalid a = true) :
    Bitfinex.quote_attempt symbol now a = .ok none := by
  cases a with
  | none => rfl
  | some v =>
    cases v with
    | jobj d =>
      simp only [Bitfinex.quote_invalid, Bool.or_eq_true, Bool.not_eq_true'] at h
      rcases h with (hb | ha) | ht
      · simp [Bitfinex.quote_attempt, pyIn, hb]
      · by_cases hb : d.any (fun p => p.1 = "bid") = true <;>
          simp [Bitfinex.quote_attempt, pyIn, hb, ha]
      · by_cases hb : d.any (fun p => p.1 = "bid") = true <;>
          by_cases ha : d.any (fun p => p.1 = "ask") = true <;>
          simp [Bitfinex.quote_attempt, pyIn, hb, ha, ht]
    | jnull => simp [Bitfinex.quote_invalid] at h
    | jbool b => simp [Bitfinex.quote_invalid] at h
    | jnum q => simp [Bitfinex.quote_invalid] at h
    | jstr s => simp [Bitfinex.quote_invalid] at h
    | jarr xs => simp [Bitfinex.quote_invalid] at h

theorem any_of_lookupLast_some {α : Type} (k : String) (d : List (String × α)) (v : α)
    (h : lookupLast k d = some v) : d.any (fun p => p.1 = k) = true := by
  by_contra hc
  rw [Bool.not_eq_true] at hc
  rw [(lookupLast_none_iff k d).mpr hc] at h
  cases h

theorem btce_quote_attempt_ok_shape (symbol : String) (now : ℚ) (a : Option JVal) (q : QuoteV)
    (h : BTCe.quote_attempt symbol now a = .ok (some q)) :
    ∃ b k, q = .mk b k now "BTCe" symbol := by
  cases a with
  | none => simp [BTCe.quote_attempt] at h
  | some v =>
    simp only [BTCe.quote_attempt] at h
    repeat' split at h
    all_goals
      first
      | (injection h with h1; injection h1 with h2; exact ⟨_, _, h2.symm⟩)
      | exact absurd h (by simp)

theorem bfx_quote_attempt_ok_shape (symbol : String) (now : ℚ) (a : Option JVal) (q : QuoteV)
    (h : Bitfinex.quote_attempt symbol now a = .ok (some q)) :
    ∃ b k, q = .mk b k now "Bitfinex" symbol := by
  cases a with
  | none => simp [Bitfinex.quote_attempt] at h
  | some v =>
    simp only [Bitfinex.quote_attempt] at h
    repeat' split at h
    all_goals
      first
      | (injection h with h1; injection h1 with h2; exact ⟨_, _, h2.symm⟩)
      | exact absurd h (by simp)

theorem btce_get_quote_loop_tags (symbol : String) (now : ℚ) (retry : Bool)
    (script : List (Option JVal)) :
    ∀ (sl att : ℕ) (b k ts : ℚ) (ex sym : String) (sl' att' : ℕ),
      BTCe.get_quote_loop symbol now retry script sl att
        = .returned (.mk b k ts ex sym) sl' att' →
      ex = "BTCe" ∧ sym = symbol ∧ ts = now := by
  induction script with
  | nil =>
    intro sl att b k ts ex sym sl' att' h
    simp [BTCe.get_quote_loop] at h
  | cons hd tl ih =>
    intro sl att b k ts ex sym sl' att' h
    simp only [BTCe.get_quote_loop] at h
    cases hatt : BTCe.quote_attempt symbol now hd with
    | error e => rw [hatt] at h; simp at h
    | ok o =>
      cases o with
      | none =>
        rw [hatt] at h
        simp only at h
        cases retry with
        | true => exact ih _ _ _ _ _ _ _ _ _ h
        | false => simp at h
      | some q0 =>
        rw [hatt] at h
        simp only [QuoteOutcome.returned.injEq] at h
        obtain ⟨hq, -, -⟩ := h
        obtain ⟨b0, k0, rfl⟩ := btce_quote_attempt_ok_shape symbol now hd q0 hatt
        injection hq with h1 h2 h3 h4 h5
        exact ⟨h4.symm, h5.symm, h3.symm⟩

theorem bfx_get_quote_loop_tags (symbol : String) (now : ℚ) (retry : Bool)
    (script : List (Option JVal)) :
    ∀ (sl att : ℕ) (b k ts : ℚ) (ex sym : String) (sl' att' : ℕ),
      Bitfinex.get_quote_loop symbol now retry script sl att
        = .returned (.mk b k ts ex sym) sl' att' →
      ex = "Bitfinex" ∧ sym = symbol ∧ ts = now := by
  induction script with
  | nil =>
    intro sl att b k ts ex sym sl' att' h
    simp [Bitfinex.get_quote_loop] at h
  | cons hd tl ih =>
    intro sl att b k ts ex sym sl' att' h
    simp only [Bitfinex.get_quote_loop] at h
    cases hatt : Bitfinex.quote_attempt symbol now hd with
    | error e => rw [hatt] at h; simp at h
    | ok o =>
      cases o with
      | none =>
        rw [hatt] at h
        simp only at h
        cases retry with
        | true => exact ih _ _ _ _ _ _ _ _ _ h
        | false => simp at h
      | some q0 =>
        rw [hatt] at h
        simp only [QuoteOutcome.returned.injEq] at h
        obtain ⟨hq, -, -⟩ := h
        obtain ⟨b0, k0, rfl⟩ := bfx_quote_attempt_ok_shape symbol now hd q0 hatt
        injection hq with h1 h2 h3 h4 h5
        exact ⟨h4.symm, h5.symm, h3.symm⟩

/-! ### Claim theorems -/

/-- C1.  The claim says `get_balance` (both variants) retries on every
failed or structurally invalid response — including the FAILURE sentinel
`None` — and never raises.  In fact `BTCe.get_balance` evaluates
`"success" in answer` on the sentinel, i.e. `"success" in None`, which
raises `TypeError` after the first call instead of retrying or
returning. -/
theorem btce_get_balance_raises_on_failure_sentinel :
    BTCe.get_balance [none] = .raised .typeError 1 := rfl

/-- C2 counterexample.  A JSON decode failure of the response body raises
`ValueError` (`json.JSONDecodeError`), which the `except OSError` clause
does not catch: `BTCe.get_unauthenticated_data` (and likewise
`Bitfinex.get_authenticated_data`) propagates it instead of returning the
FAILURE sentinel. -/
theorem raw_call_decode_error_propagates :
    BTCe.get_unauthenticated_data (.error .valueError) = .error .valueError
    ∧ (Bitfinex.get_authenticated_data "/balances" [] "1.0" (.error .valueError)).2
        = .error .valueError
    ∧ Except.error PyExc.valueError ≠ Except.ok (none : Option JVal) :=
  ⟨rfl, rfl, fun h => Except.noConfusion h⟩

/-- C2, amended.  The raw calls convert exactly the `OSError` family of
transport errors to the FAILURE sentinel (with a log entry) and return
decoded JSON unchanged; any other exception raised inside the call — in
particular `ValueError` from JSON decoding of the response body —
propagates to the caller. -/
theorem raw_calls_catch_exactly_oserror :
    (∀ j : JVal, BTCe.get_unauthenticated_data (.ok j) = .ok (some j))
    ∧ (∀ e : PyExc, e.isOSError = true →
        BTCe.get_unauthenticated_data (.error e) = .ok none)
    ∧ (∀ e : PyExc, e.isOSError = false →
        BTCe.get_unauthenticated_data (.error e) = .error e)
    ∧ (∀ (url : String) (req : List (String × JVal)) (ns : String) (j : JVal),
        (Bitfinex.get_authenticated_data url req ns (.ok j)).2 = .ok (some j))
    ∧ (∀ (url : String) (req : List (String × JVal)) (ns : String) (e : PyExc),
        e.isOSError = true →
        (Bitfinex.get_authenticated_data url req ns (.error e)).2 = .ok none)
    ∧ (∀ (url : String) (req : List (String × JVal)) (ns : String) (e : PyExc),
        e.isOSError = false →
        (Bitfinex.get_authenticated_data url req ns (.error e)).2 = .error e) := by
  refine ⟨fun j => rfl, fun e he => ?_, fun e he => ?_,
    fun url req ns j => rfl, fun url req ns e he => ?_, fun url req ns e he => ?_⟩ <;>
    simp [BTCe.get_unauthenticated_data, Bitfinex.get_authenticated_data,
      tryExceptOSError, he]

theorem raw_calls_catch_exactly_oserror_witness :
    BTCe.get_unauthenticated_data (.error .osError) = .ok none
    ∧ (Bitfinex.get_authenticated_data "/order/new" [] "1.0" (.error .httpException)).2
        = .error .httpException :=
  ⟨raw_calls_catch_exactly_oserror.2.1 .osError rfl,
   raw_calls_catch_exactly_oserror.2.2.2.2.2 "/order/new" [] "1.0" .httpException rfl⟩

/-- C3 counterexample.  The claim says `Bitfinex.market_buy` uses a
symbolic very-high limit price and `market_sell` a symbolic very-low one;
the code has it the other way round: the buy order's price field is the
literal `"0.01"` and the sell order's is `"100000.00"`, so the buy price
is numerically far below the sell price. -/
theorem bitfinex_market_price_directions_swapped :
    lookupLast "price" (Bitfinex.market_buy_params "ltcusd" ⟨1, 0⟩) = some "0.01"
    ∧ lookupLast "price" (Bitfinex.market_sell_params "ltcusd" ⟨1, 0⟩) = some "100000.00"
    ∧ parseDecF "0.01" = some ⟨1, 100⟩
    ∧ parseDecF "100000.00" = some ⟨10000000, 100⟩
    ∧ Frac.ltB ⟨1, 100⟩ ⟨10000000, 100⟩ = true :=
  ⟨rfl, rfl, rfl, rfl, by decide⟩

/-- C3, amended.  `Bitfinex.market_buy` submits with the symbolic
very-low limit price `"0.01"` and `Bitfinex.market_sell` with the
symbolic very-high `"100000.00"` (the order type is `"exchange market"`,
so the price is nominal); in both, the amount field is the input amount
printed as a fixed-point decimal string with no fee-based adjustment. -/
theorem bitfinex_market_params_prices_and_amount :
    ∀ (symbol : String) (amount : Dec),
      lookupLast "price" (Bitfinex.market_buy_params symbol amount) = some "0.01"
      ∧ lookupLast "price" (Bitfinex.market_sell_params symbol amount) = some "100000.00"
      ∧ lookupLast "amount" (Bitfinex.market_buy_params symbol amount) = some amount.fmtF
      ∧ lookupLast "amount" (Bitfinex.market_sell_params symbol amount) = some amount.fmtF
      ∧ lookupLast "type" (Bitfinex.market_buy_params symbol amount) = some "exchange market"
      ∧ lookupLast "type" (Bitfinex.market_sell_params symbol amount)
          = some "exchange market" :=
  fun _ _ => ⟨rfl, rfl, rfl, rfl, rfl, rfl⟩

/-- C4.  The claim says `Bitfinex.place_market_order` polls until the
order is reported no longer live and then fetches a fresh balance.  The
loop condition tests `"is_live" not in answer` on the original
acknowledgment (never reassigned inside the loop), so with an
acknowledgment lacking `is_live` the loop never exits: after consuming a
status response that reports `is_live = false` it is still polling
(`.exhausted`) instead of fetching the balance after that one poll. -/
theorem bitfinex_poll_loop_ignores_fresh_status :
    Bitfinex.place_market_order
        [some (.jobj [("order_id", .jnum 5)]), some (.jobj [("is_live", .jbool false)])]
      = .exhausted
    ∧ ∀ polls : ℕ, (OrderOutcome.exhausted : OrderOutcome) ≠ .balanceFetched polls :=
  ⟨rfl, fun _ h => OrderOutcome.noConfusion h⟩

/-- C5.  Variant A fixture: with `fee_rate = Decimal("0.002") = 2/1000`,
cached ask `100` and `amount = 1`, `BTCe.market_buy` builds the order
request with rate `"150.000"` (ask times `Decimal("1.5")`, 3 places) and
amount `"1.00200401"` (`1/(1-0.002)` under the 28-digit decimal context,
8 places, half-even). -/
theorem btce_market_buy_fixture :
    BTCe.market_buy_params "ltc_usd" ⟨2, 1000⟩ ⟨100, 1⟩ ⟨1, 1⟩ =
      [("pair", "ltc_usd"), ("type", "buy"),
       ("rate", "150.000"), ("amount", "1.00200401")] := rfl

/-- C6.  For a bootstrap rejection message embedding `on key: 42`, the
`BTCe.__init__` handshake initializes the nonce to `42`; the first
subsequent authenticated call sends nonce `43`, the `(k+1)`-th sends
`n + k + 1` from stored nonce `n` (each call exactly one greater than the
last), so the sent nonce sequence is strictly monotonically increasing. -/
theorem btce_nonce_bootstrap_and_monotone :
    BTCe.bootstrap_nonce
        [some (.jobj [("success", .jnum 0),
          ("error", .jstr "invalid nonce parameter; on key: 42, you sent: 17")])]
      = .initialized 42
    ∧ BTCe.sent_nonce (some 42) 0 = some 43
    ∧ (∀ (n : ℤ) (k : ℕ), BTCe.sent_nonce (some n) k = some (n + k + 1))
    ∧ (∀ (n : ℤ) (j k : ℕ) (a b : ℤ), j < k →
        BTCe.sent_nonce (some n) j = some a →
        BTCe.sent_nonce (some n) k = some b → a < b) := by
  refine ⟨rfl, rfl, fun n k => BTCe.sent_nonce_formula n k,
    fun n j k a b hjk hj hk => ?_⟩
  rw [BTCe.sent_nonce_formula] at hj hk
  injection hj with hj
  injection hk with hk
  omega

theorem btce_nonce_bootstrap_and_monotone_witness : (48 : ℤ) < 50 :=
  btce_nonce_bootstrap_and_monotone.2.2.2 42 5 7 48 50 (by decide) rfl rfl

/-- C7.  On a raw ticker result that fails the validation (the FAILURE
sentinel or a response lacking the expected keys), `get_quote` with
`retry = false` returns the empty `Quote` at once for both variants:
zero sleeps, exactly one transport attempt, regardless of what would
come next. -/
theorem get_quote_no_retry_returns_empty :
    (∀ (symbol : String) (now : ℚ) (a : Option JVal) (rest : List (Option JVal)),
      BTCe.quote_invalid symbol a = true →
      BTCe.get_quote symbol now false (a :: rest) = .returned .empty 0 1)
    ∧ (∀ (symbol : String) (now : ℚ) (a : Option JVal) (rest : List (Option JVal)),
      Bitfinex.quote_invalid a = true →
      Bitfinex.get_quote symbol now false (a :: rest) = .returned .empty 0 1) := by
  constructor
  · intro symbol now a rest h
    simp [BTCe.get_quote, BTCe.get_quote_loop, btce_quote_attempt_of_invalid symbol now a h]
  · intro symbol now a rest h
    simp [Bitfinex.get_quote, Bitfinex.get_quote_loop,
      bfx_quote_attempt_of_invalid symbol now a h]

theorem get_quote_no_retry_returns_empty_witness :
    BTCe.get_quote "ltc_usd" 0 false [none] = .returned .empty 0 1
    ∧ Bitfinex.get_quote "ltcusd" 0 false [some (.jobj [("message", .jstr "err")])]
        = .returned .empty 0 1 :=
  ⟨get_quote_no_retry_returns_empty.1 "ltc_usd" 0 none [] rfl,
   get_quote_no_retry_returns_empty.2 "ltcusd" 0 (some (.jobj [("message", .jstr "err")])) [] rfl⟩

/-- C8.  With `retry = true`, two raw ticker results failing the
validation followed by one accepted result make `get_quote` return the
`Quote` built from the third result after exactly two sleeps (one per
failed attempt, none after the success) and three transport attempts,
for both variants. -/
theorem get_quote_retry_two_failures_then_success :
    (∀ (symbol : String) (now : ℚ) (a1 a2 a3 : Option JVal)
        (rest : List (Option JVal)) (q : QuoteV),
      BTCe.quote_invalid symbol a1 = true →
      BTCe.quote_invalid symbol a2 = true →
      BTCe.quote_attempt symbol now a3 = .ok (some q) →
      BTCe.get_quote symbol now true (a1 :: a2 :: a3 :: rest) = .returned q 2 3)
    ∧ (∀ (symbol : String) (now : ℚ) (a1 a2 a3 : Option JVal)
        (rest : List (Option JVal)) (q : QuoteV),
      Bitfinex.quote_invalid a1 = true →
      Bitfinex.quote_invalid a2 = true →
      Bitfinex.quote_attempt symbol now a3 = .ok (some q) →
      Bitfinex.get_quote symbol now true (a1 :: a2 :: a3 :: rest) = .returned q 2 3) := by
  constructor
  · intro symbol now a1 a2 a3 rest q h1 h2 h3
    simp [BTCe.get_quote, BTCe.get_quote_loop,
      btce_quote_attempt_of_invalid symbol now a1 h1,
      btce_quote_attempt_of_invalid symbol now a2 h2, h3]
  · intro symbol now a1 a2 a3 rest q h1 h2 h3
    simp [Bitfinex.get_quote, Bitfinex.get_quote_loop,
      bfx_quote_attempt_of_invalid symbol now a1 h1,
      bfx_quote_attempt_of_invalid symbol now a2 h2, h3]

theorem get_quote_retry_two_failures_then_success_witness :
    BTCe.get_quote "ltc_usd" 3 true
        [none, some (.jobj []),
         some (.jobj [("ltc_usd", .jobj [("sell", .jnum 5), ("buy", .jnum 6)])])]
      = .returned (.mk 5 6 3 "BTCe" "ltc_usd") 2 3 :=
  get_quote_retry_two_failures_then_success.1 "ltc_usd" 3 none (some (.jobj []))
    (some (.jobj [("ltc_usd", .jobj [("sell", .jnum 5), ("buy", .jnum 6)])])) []
    (.mk 5 6 3 "BTCe" "ltc_usd") rfl rfl rfl

/-- C9 counterexample.  The validation of `get_quote` does not check the
price ordering: a structurally valid BTCe ticker with `sell = 10` and
`buy = 5` is accepted and produces a populated `Quote` with
`bid = 10 > ask = 5`, refuting "for every accepted response the returned
Quote satisfies bid ≤ ask". -/
theorem get_quote_accepts_crossed_ticker :
    BTCe.get_quote "ltc_usd" 7 false
        [some (.jobj [("ltc_usd", .jobj [("sell", .jnum 10), ("buy", .jnum 5)])])]
      = .returned (.mk 10 5 7 "BTCe" "ltc_usd") 0 1
    ∧ ¬((10 : ℚ) ≤ 5) :=
  ⟨rfl, by norm_num⟩

/-- C9, amended.  Every populated `Quote` returned by `get_quote` carries
the adapter's own exchange name, its configured symbol and the local
timestamp, and its bid/ask are copied unchanged from the response's
`sell`/`buy` (BTCe) or `bid`/`ask` (Bitfinex) fields — so `bid ≤ ask`
holds exactly when the response's own prices are so ordered, which the
validation does not check. -/
theorem get_quote_tags_and_copies_prices :
    (∀ (symbol : String) (now : ℚ) (retry : Bool) (script : List (Option JVal))
        (b k ts : ℚ) (ex sym : String) (sl att : ℕ),
      BTCe.get_quote symbol now retry script = .returned (.mk b k ts ex sym) sl att →
      ex = "BTCe" ∧ sym = symbol ∧ ts = now)
    ∧ (∀ (symbol : String) (now : ℚ) (retry : Bool) (script : List (Option JVal))
        (b k ts : ℚ) (ex sym : String) (sl att : ℕ),
      Bitfinex.get_quote symbol now retry script = .returned (.mk b k ts ex sym) sl att →
      ex = "Bitfinex" ∧ sym = symbol ∧ ts = now)
    ∧ (∀ (symbol : String) (now : ℚ) (d info : List (String × JVal)) (bq aq : ℚ),
      lookupLast symbol d = some (.jobj info) →
      lookupLast "sell" info = some (.jnum bq) →
      lookupLast "buy" info = some (.jnum aq) →
      BTCe.quote_attempt symbol now (some (.jobj d))
        = .ok (some (.mk bq aq now "BTCe" symbol)))
    ∧ (∀ (symbol : String) (now : ℚ) (d : List (String × JVal)) (bq aq : ℚ) (tv : JVal),
      lookupLast "bid" d = some (.jnum bq) →
      lookupLast "ask" d = some (.jnum aq) →
      lookupLast "timestamp" d = some tv →
      Bitfinex.quote_attempt symbol now (some (.jobj d))
        = .ok (some (.mk bq aq now "Bitfinex" symbol))) := by
  refine ⟨fun symbol now retry script b k ts ex sym sl att h =>
      btce_get_quote_loop_tags symbol now retry script 0 0 b k ts ex sym sl att h,
    fun symbol now retry script b k ts ex sym sl att h =>
      bfx_get_quote_loop_tags symbol now retry script 0 0 b k ts ex sym sl att h,
    ?_, ?_⟩
  · intro symbol now d info bq aq h1 h2 h3
    have hany := any_of_lookupLast_some symbol d _ h1
    simp [BTCe.quote_attempt, pyIn, jGet, hany, h1, h2, h3, decOfPy]
  · intro symbol now d bq aq tv h1 h2 h3
    have hb := any_of_lookupLast_some "bid" d _ h1
    have ha := any_of_lookupLast_some "ask" d _ h2
    have ht := any_of_lookupLast_some "timestamp" d _ h3
    simp [Bitfinex.quote_attempt, pyIn, jGet, hb, ha, ht, h1, h2, decOfPy]

theorem get_quote_tags_and_copies_prices_witness :
    BTCe.quote_attempt "ltc_usd" 2
        (some (.jobj [("ltc_usd", .jobj [("sell", .jnum 3), ("buy", .jnum 4)])]))
      = .ok (some (.mk 3 4 2 "BTCe" "ltc_usd")) :=
  get_quote_tags_and_copies_prices.2.2.1 "ltc_usd" 2
    [("ltc_usd", .jobj [("sell", .jnum 3), ("buy", .jnum 4)])]
    [("sell", .jnum 3), ("buy", .jnum 4)] 3 4 rfl rfl rfl

/-- C10.  `get_authenticated_data` mutates the caller-supplied parameter
dict in place before sending: the BTCe variant adds/overwrites the
`method` and `nonce` keys, the Bitfinex variant the `request` and `nonce`
keys, and every other key keeps its binding — so the caller observes the
extra keys after the call returns. -/
theorem get_authenticated_data_mutates_params :
    (∀ (nonce : Option ℤ) (method : JVal) (params : List (String × JVal))
        (attempt : Except PyExc JVal),
      lookupLast "method" (BTCe.get_authenticated_data nonce method params attempt).paramsAfter
          = some method
      ∧ lookupLast "nonce" (BTCe.get_authenticated_data nonce method params attempt).paramsAfter
          = some (jOfNonce (BTCe.nonce_step nonce).2)
      ∧ ∀ k, k ≠ "method" → k ≠ "nonce" →
          lookupLast k (BTCe.get_authenticated_data nonce method params attempt).paramsAfter
            = lookupLast k params)
    ∧ (∀ (url : String) (request : List (String × JVal)) (nonceStr : String)
        (attempt : Except PyExc JVal),
      lookupLast "request" (Bitfinex.get_authenticated_data url request nonceStr attempt).1
          = some (.jstr ("/v1" ++ url))
      ∧ lookupLast "nonce" (Bitfinex.get_authenticated_data url request nonceStr attempt).1
          = some (.jstr nonceStr)
      ∧ ∀ k, k ≠ "request" → k ≠ "nonce" →
          lookupLast k (Bitfinex.get_authenticated_data url request nonceStr attempt).1
            = lookupLast k request) := by
  constructor
  · intro nonce method params attempt
    have hupd : (BTCe.get_authenticated_data nonce method params attempt).paramsAfter
        = dictSet (dictSet params "method" method) "nonce"
            (jOfNonce (BTCe.nonce_step nonce).2) := rfl
    rw [hupd]
    refine ⟨?_, lookupLast_dictSet_same _ _ _, fun k hk1 hk2 => ?_⟩
    · rw [lookupLast_dictSet_other "nonce" "method" _ _ (by decide)]
      exact lookupLast_dictSet_same _ _ _
    · rw [lookupLast_dictSet_other "nonce" k _ _ hk2,
        lookupLast_dictSet_other "method" k _ _ hk1]
  · intro url request nonceStr attempt
    have hupd : (Bitfinex.get_authenticated_data url request nonceStr attempt).1
        = dictSet (dictSet request "request" (.jstr ("/v1" ++ url))) "nonce"
            (.jstr nonceStr) := rfl
    rw [hupd]
    refine ⟨?_, lookupLast_dictSet_same _ _ _, fun k hk1 hk2 => ?_⟩
    · rw [lookupLast_dictSet_other "nonce" "request" _ _ (by decide)]
      exact lookupLast_dictSet_same _ _ _
    · rw [lookupLast_dictSet_other "nonce" k _ _ hk2,
        lookupLast_dictSet_other "request" k _ _ hk1]

theorem get_authenticated_data_mutates_params_witness :
    lookupLast "pair"
        (BTCe.get_authenticated_data (some 1) (.jstr "Trade")
          [("pair", .jstr "ltc_usd")] (.ok .jnull)).paramsAfter
      = lookupLast "pair" [("pair", JVal.jstr "ltc_usd")] :=
  (get_authenticated_data_mutates_params.1 (some 1) (.jstr "Trade")
      [("pair", .jstr "ltc_usd")] (.ok .jnull)).2.2 "pair"
    (by decide) (by decide)
